import Mathlib

/-
  Verification development for the chip8_go repository (src/chip8.go).

  The Go program is shallowly embedded as follows:
  - fixed-size Go byte / uint16 arrays become total functions out of Nat
    (only in-range indices are ever dereferenced by the embedded code; the
    draw routine keeps its display indices in range by construction, exactly
    as the Go loop does);
  - Go machine integers become Nat with explicit reductions: byte writes are
    reduced mod 256, uint16 arithmetic mod 65536, at the points where the Go
    types force wrapping;
  - a Go runtime panic from an out-of-range array index (memory fetches at
    the program counter and sprite reads at the index register are the only
    places one can occur) is modelled as Option.none, so Cycle and the draw
    helper return Option;
  - fmt.Print side effects carry no state and are not modelled.
-/

namespace Chip8Go

/-- State of the interpreter, mirroring the fields of the Go struct Chip8
(registers [16]byte, program_counter uint16, index_register uint16,
stack [16]uint16, delay_timer uint8, sound_timer uint8, memory [4096]byte,
display [32][64]int, keypad [16]uint16). Arrays are modelled as total
functions from the index type to Nat. -/
structure Chip8 where
  registers : Nat → Nat
  program_counter : Nat
  index_register : Nat
  stack : Nat → Nat
  delay_timer : Nat
  sound_timer : Nat
  memory : Nat → Nat
  display : Nat → Nat → Nat
  keypad : Nat → Nat

/-- Pointwise array write: models a Go assignment arr[i] = v. -/
def upd (f : Nat → Nat) (i v : Nat) : Nat → Nat :=
  fun j => if j = i then v else f j

/-- Pointwise write into the two-dimensional display array:
models chip.display[y][x] = v. -/
def upd2 (d : Nat → Nat → Nat) (y x v : Nat) : Nat → Nat → Nat :=
  fun r c => if r = y ∧ c = x then v else d r c

/-- The 80-byte fontset literal from NewChip. -/
def fontset : List Nat :=
  [0xF0, 0x90, 0x90, 0x90, 0xF0,
   0x20, 0x60, 0x20, 0x20, 0x70,
   0xF0, 0x10, 0xF0, 0x80, 0xF0,
   0xF0, 0x10, 0xF0, 0x10, 0xF0,
   0x90, 0x90, 0xF0, 0x10, 0x10,
   0xF0, 0x80, 0xF0, 0x10, 0xF0,
   0xF0, 0x80, 0xF0, 0x90, 0xF0,
   0xF0, 0x10, 0x20, 0x40, 0x40,
   0xF0, 0x90, 0xF0, 0x90, 0xF0,
   0xF0, 0x90, 0xF0, 0x10, 0xF0,
   0xF0, 0x90, 0xF0, 0x90, 0x90,
   0xE0, 0x90, 0xE0, 0x90, 0xE0,
   0xF0, 0x80, 0x80, 0x80, 0xF0,
   0xE0, 0x90, 0x90, 0x90, 0xE0,
   0xF0, 0x80, 0xF0, 0x80, 0xF0,
   0xF0, 0x80, 0xF0, 0x80, 0x80]

/-- NewChip: zero-initialised struct (new(Chip8)), program_counter set to
0x200, then the loop for i in [0,80) copying fontset[i] into memory[i]. -/
def NewChip : Chip8 :=
  { registers := fun _ => 0
    program_counter := 0x200
    index_register := 0
    stack := fun _ => 0
    delay_timer := 0
    sound_timer := 0
    memory := (List.range 80).foldl (fun m i => upd m i (fontset.getD i 0)) (fun _ => 0)
    display := fun _ _ => 0
    keypad := fun _ => 0 }

/-- The write loop of LoadROM: for each ROM byte, memory[mem_value] = byte;
mem_value++. Bytes are reduced mod 256 to model the Go byte element type.
(On the success path the checked bound keeps mem_value below 4096, so the
uint16 increment never wraps.) -/
def loadBytes : (Nat → Nat) → Nat → List Nat → (Nat → Nat)
  | mem, _, [] => mem
  | mem, base, b :: rest => loadBytes (upd mem base (b % 256)) (base + 1) rest

/-- LoadROM with the file contents already read (the os.ReadFile I/O and its
error path are external and mutate nothing). Starting at
mem_value = chip.program_counter, it fails returning false if
int(mem_value) + len(data) >= len(chip.memory) = 4096, otherwise copies the
bytes into memory and returns true. -/
def LoadROM (chip : Chip8) (data : List Nat) : Chip8 × Bool :=
  let mem_value := chip.program_counter
  if mem_value + data.length ≥ 4096 then (chip, false)
  else ({ chip with memory := loadBytes chip.memory mem_value data }, true)

/-- GetNibbles from the source: (val & binary_and) >> bits. -/
def GetNibbles (val : Nat) (bits : Nat) (binary_and : Nat) : Nat :=
  (val &&& binary_and) >>> bits

/-- Inner loop of the DXYN case: j runs over [7,6,...,0]; arguments after the
bit list are sprite_byte, x, the display and the VF flag. Each step builds
mask = byte(1 << j) and bit = (sprite_byte & mask) >> j; on bit = 1 with the
pixel already lit it clears the mask bit of sprite_byte (byte complement
^mask = 255 ^^^ mask) and sets VF = 1, otherwise it writes the pixel on;
the loop breaks once x > 62, else increments x. Returns the display, the
flag, and the final x (which the Go code keeps for the next row). VF is
threaded as a loop value because the register file is not read inside the
loop; the surrounding case writes it back once. -/
def drawBits (y : Nat) : List Nat → Nat → Nat → (Nat → Nat → Nat) → Nat →
    ((Nat → Nat → Nat) × Nat × Nat)
  | [], _, x, disp, vf => (disp, vf, x)
  | j :: js, sprite_byte, x, disp, vf =>
    let mask := (1 <<< j) % 256
    let bit := (sprite_byte &&& mask) >>> j
    if bit = 1 ∧ disp y x = 1 then
      let sprite2 := sprite_byte &&& (255 ^^^ mask)
      if x > 62 then (disp, 1, x)
      else drawBits y js sprite2 (x + 1) disp 1
    else
      let disp2 := upd2 disp y x 1
      if x > 62 then (disp2, vf, x)
      else drawBits y js sprite_byte (x + 1) disp2 vf

/-- Outer loop of the DXYN case over the row indices i in [0, n_bytes).
Each row reads sprite_byte = memory[index_register + uint16(i)] (none models
the Go index-out-of-range panic when that uint16 sum reaches 4096 or more),
runs the bit loop, increments y and stops after the row in which y passes 30.
x is carried from row to row, exactly as in the Go code, which never resets
it. -/
def drawRows (mem : Nat → Nat) (ir : Nat) : List Nat → Nat → Nat →
    (Nat → Nat → Nat) → Nat → Option ((Nat → Nat → Nat) × Nat)
  | [], _, _, disp, vf => some (disp, vf)
  | i :: rest, x, y, disp, vf =>
    let addr := (ir + i) % 65536
    if addr < 4096 then
      match drawBits y [7, 6, 5, 4, 3, 2, 1, 0] (mem addr) x disp vf with
      | (disp2, vf2, x2) =>
        if y + 1 > 30 then some (disp2, vf2)
        else drawRows mem ir rest x2 (y + 1) disp2 vf2
    else none

/-- Cycle: fetch opcode = memory[PC] << 8 | memory[PC+1] (none models the Go
panic when PC + 1 reaches 4096, i.e. a fetch outside memory), switch on the
top nibble. Implemented cases are 0 (clear display — the Go switch ignores
the low bits, so every class-0 opcode clears), 1 (jump NNN), 6 (set Vx),
7 (add Vx), 10 (set I) and 13 (draw); the default case only prints and
leaves the whole state unchanged. PC updates reduce mod 65536 (uint16),
register writes mod 256 (byte). -/
def Cycle (chip : Chip8) : Option Chip8 :=
  if chip.program_counter + 1 < 4096 then
    let opcode := (chip.memory chip.program_counter) <<< 8 |||
      chip.memory (chip.program_counter + 1)
    let opcode_nibble_1 := GetNibbles opcode 12 0xF000
    if opcode_nibble_1 = 0 then
      some { chip with display := fun _ _ => 0,
                       program_counter := (chip.program_counter + 2) % 65536 }
    else if opcode_nibble_1 = 1 then
      some { chip with program_counter := GetNibbles opcode 0 0x0FFF }
    else if opcode_nibble_1 = 6 then
      let val := GetNibbles opcode 0 0x00FF
      let reg1 := GetNibbles opcode 8 0x0F00
      some { chip with registers := upd chip.registers reg1 (val % 256),
                       program_counter := (chip.program_counter + 2) % 65536 }
    else if opcode_nibble_1 = 7 then
      let val := GetNibbles opcode 0 0x00FF
      let reg1 := GetNibbles opcode 8 0x0F00
      let regs2 := upd chip.registers reg1 ((chip.registers reg1 + val % 256) % 256)
      some { chip with registers := regs2,
                       program_counter := (chip.program_counter + 2) % 65536 }
    else if opcode_nibble_1 = 10 then
      let val := GetNibbles opcode 0 0x0FFF
      some { chip with index_register := val % 65536,
                       program_counter := (chip.program_counter + 2) % 65536 }
    else if opcode_nibble_1 = 13 then
      let reg1 := GetNibbles opcode 8 0x0F00
      let reg2 := GetNibbles opcode 4 0x00F0
      let x := chip.registers reg1 &&& 63
      let y := chip.registers reg2 &&& 31
      let n_bytes := GetNibbles opcode 0 0x000F
      match drawRows chip.memory chip.index_register (List.range n_bytes)
          x y chip.display 0 with
      | none => none
      | some (disp, vf) =>
        some { chip with display := disp,
                         registers := upd chip.registers 15 vf,
                         program_counter := (chip.program_counter + 2) % 65536 }
    else
      some chip
  else none

/-- Iterated cycles, propagating a modelled panic. -/
def cycles : Nat → Chip8 → Option Chip8
  | 0, chip => some chip
  | n + 1, chip => Option.bind (Cycle chip) (cycles n)

/-- Bits at positions 8 and above of a byte value are clear. -/
theorem testBit_byte_high (nn i : Nat) (h : nn < 256) (hi : 8 ≤ i) :
    Nat.testBit nn i = false := by
  apply Nat.testBit_eq_false_of_lt
  have h8 : (2:Nat) ^ 8 ≤ 2 ^ i := Nat.pow_le_pow_right (by omega) hi
  have h9 : (2:Nat) ^ 8 = 256 := by norm_num
  omega

/-- The fetched opcode b <<< 8 ||| nn equals b * 256 + nn for byte nn. -/
theorem or_shift8 (b nn : Nat) (h : nn < 256) :
    (b <<< 8) ||| nn = b * 256 + nn := by
  have hdiv : ((b <<< 8) ||| nn) >>> 8 = b := by
    apply Nat.eq_of_testBit_eq
    intro i
    simp only [Nat.testBit_shiftRight, Nat.testBit_lor, Nat.testBit_shiftLeft]
    have hnn : Nat.testBit nn (8 + i) = false := testBit_byte_high nn (8 + i) h (by omega)
    have h8 : 8 + i - 8 = i := by omega
    simp [hnn, h8]
  have hmod : ((b <<< 8) ||| nn) % 256 = nn := by
    have h256 : (256:Nat) = 2 ^ 8 := by norm_num
    rw [h256]
    apply Nat.eq_of_testBit_eq
    intro i
    simp only [Nat.testBit_mod_two_pow, Nat.testBit_lor, Nat.testBit_shiftLeft]
    by_cases hi : i < 8
    · have hd : (decide (i ≥ 8)) = false := by simp; omega
      simp [hi, hd]
    · have hnn : Nat.testBit nn i = false := testBit_byte_high nn i h (by omega)
      simp [hi, hnn]
  have hx := Nat.div_add_mod ((b <<< 8) ||| nn) 256
  rw [Nat.shiftRight_eq_div_pow] at hdiv
  norm_num at hdiv
  omega

/-- GetNibbles with a contiguous mask of k bits shifted by s extracts
the corresponding slice as a divide-and-mod expression. -/
theorem getNibbles_mask (x s k : Nat) :
    GetNibbles x s ((2 ^ k - 1) <<< s) = x / 2 ^ s % 2 ^ k := by
  unfold GetNibbles
  rw [← Nat.shiftRight_eq_div_pow]
  apply Nat.eq_of_testBit_eq
  intro i
  simp only [Nat.testBit_shiftRight, Nat.testBit_land, Nat.testBit_shiftLeft,
    Nat.testBit_two_pow_sub_one, Nat.testBit_mod_two_pow]
  have h : s + i - s = i := by omega
  have h2 : (decide (s + i ≥ s)) = true := by simp
  rw [h, h2]
  cases hx : Nat.testBit x (s + i) <;> cases hi : decide (i < k) <;> simp

/-- The opcode-class extraction of the source is the top nibble. -/
theorem getN_top (x : Nat) : GetNibbles x 12 0xF000 = x / 4096 % 16 := by
  have h := getNibbles_mask x 12 4
  norm_num at h
  exact h

/-- The X operand extraction of the source. -/
theorem getN_X (x : Nat) : GetNibbles x 8 0x0F00 = x / 256 % 16 := by
  have h := getNibbles_mask x 8 4
  norm_num at h
  exact h

/-- The Y operand extraction of the source. -/
theorem getN_Y (x : Nat) : GetNibbles x 4 0x00F0 = x / 16 % 16 := by
  have h := getNibbles_mask x 4 4
  norm_num at h
  exact h

/-- The NN operand extraction of the source. -/
theorem getN_NN (x : Nat) : GetNibbles x 0 0x00FF = x % 256 := by
  have h := getNibbles_mask x 0 8
  norm_num at h
  exact h

/-- The NNN operand extraction of the source. -/
theorem getN_NNN (x : Nat) : GetNibbles x 0 0x0FFF = x % 4096 := by
  have h := getNibbles_mask x 0 12
  norm_num at h
  exact h

/-- Claim C1: the claim states that drawing the 8-wide sprite byte 0xFF twice
at the same coordinates with DXY1 returns that display row to all-off (XOR
self-cancellation) with VF = 1 on the second draw. The code does not XOR:
on a collision it clears the sprite bit and leaves the pixel lit, so after
the program [set I = 0x206; draw 1 row at (V0,V1) = (0,0); draw again; data
byte 0xFF] runs for three cycles, all eight pixels of row 0 are still on
(VF = 1 does hold). -/
theorem c1_draw_twice_leaves_row_on :
    (cycles 3 (LoadROM NewChip [0xA2, 0x06, 0xD0, 0x11, 0xD0, 0x11, 0xFF]).1).map
      (fun c => (c.registers 15, c.display 0 0, c.display 0 1, c.display 0 2,
        c.display 0 3, c.display 0 4, c.display 0 5, c.display 0 6, c.display 0 7)) =
    some (1, 1, 1, 1, 1, 1, 1, 1, 1) := by
  rfl

/-- Claim C2: the claim states that an unrecognized opcode class produces a
fatal observable fault halting execution. The code only prints a message:
executing one cycle on opcode 0x2123 (class 2, CALL, unimplemented) returns
normally with every field of the state unchanged, so the loop refetches the
same instruction forever. -/
theorem c2_invalid_opcode_state_unchanged :
    Cycle (LoadROM NewChip [0x21, 0x23]).1 = some (LoadROM NewChip [0x21, 0x23]).1 := by
  rfl

/-- Claim C3: the claim states that opcode 0x00EE pops the stack into PC and
faults on an empty stack. The code's class-0 case ignores the low bits and
treats 0x00EE as clear-screen: with 0x345 sitting on the modelled stack, one
cycle leaves the stack untouched, advances PC by 2 to 514 instead of popping,
and clears the display; no fault path exists for an empty stack either. -/
theorem c3_ret_treated_as_clear :
    (Cycle { (LoadROM NewChip [0x00, 0xEE]).1 with stack := fun _ => 0x345 }).map
      (fun c => (c.program_counter, c.stack 0, c.display 0 0)) =
    some (514, 0x345, 0) := by
  decide

/-- Claim C4: the claim states the four-instruction scenario ends with
V0 = 15, VF = 0 and PC advanced by 8. The fourth instruction 0x8014 (class 8)
is unimplemented and hits the print-and-continue default, so the run actually
ends with V0 = 5, V1 = 10, VF = 0 and PC = 518 (advanced by 6). -/
theorem c4_scenario_actual_final_state :
    (cycles 4 (LoadROM NewChip [0x00, 0xE0, 0x60, 0x05, 0x61, 0x0A, 0x80, 0x14]).1).map
      (fun c => (c.registers 0, c.registers 1, c.registers 15, c.program_counter)) =
    some (5, 10, 0, 518) := by
  decide

/-- Claim C5: the claim states that after any step from a reachable state
PC < 4096 unless the engine has faulted. Loading the ROM [0x1F, 0xFE]
(jump to 4094) and stepping twice is a reachable run whose second step
returns normally (no fault, no panic) with PC = 4096. -/
theorem c5_pc_reaches_4096_without_fault :
    (cycles 2 (LoadROM NewChip [0x1F, 0xFE]).1).map (fun c => c.program_counter) =
    some 4096 := by
  decide

/-- Claim C6 counterexample: the claim states that a ROM with
0x200 + length = 4096, exactly filling memory, loads successfully; the
code's bound uses >= len(memory), so the 3584-byte ROM is rejected. -/
theorem c6_exact_fit_rom_rejected :
    (LoadROM NewChip (List.replicate 3584 0)).2 = false := by
  have h : NewChip.program_counter + (List.replicate 3584 0).length ≥ 4096 := by
    rw [List.length_replicate]
    decide
  simp only [LoadROM]
  rw [if_pos h]

/-- Claim C6 (amended): loading a ROM of length L into a chip whose
program counter still sits at 0x200 fails if and only if
0x200 + L >= 4096, and a failed load leaves the state unchanged. -/
theorem c6_load_fails_iff_ge (chip : Chip8) (data : List Nat)
    (hpc : chip.program_counter = 0x200) :
    ((LoadROM chip data).2 = false ↔ 512 + data.length ≥ 4096) ∧
    ((LoadROM chip data).2 = false → (LoadROM chip data).1 = chip) := by
  unfold LoadROM
  rw [hpc]
  by_cases h : 512 + data.length ≥ 4096
  · rw [if_pos h]
    exact ⟨⟨fun _ => h, fun _ => rfl⟩, fun _ => rfl⟩
  · rw [if_neg h]
    refine ⟨⟨fun hfalse => absurd hfalse (by simp), fun hge => absurd hge h⟩, ?_⟩
    intro hfalse
    exact absurd hfalse (by simp)

/-- Claim C6 witness: the amended statement applied to the empty ROM at the
freshly initialised chip. -/
theorem c6_load_fails_iff_ge_witness :
    ((LoadROM NewChip ([] : List Nat)).2 = false ↔ 512 + ([] : List Nat).length ≥ 4096) ∧
    ((LoadROM NewChip ([] : List Nat)).2 = false →
      (LoadROM NewChip ([] : List Nat)).1 = NewChip) :=
  c6_load_fails_iff_ge NewChip [] rfl

/-- Claim C7: the claim states that memory[0..80) keeps the fontset across
every sequence of ROM loads and execution steps. LoadROM copies starting at
the current program counter, not at a fixed 0x200: after jumping to address 0
with opcode 0x1000, a further load of the single byte 0xAA succeeds and
overwrites fontset byte 0 (initially 0xF0) with 0xAA. -/
theorem c7_fontset_overwritten_after_jump_load :
    NewChip.memory 0 = 0xF0 ∧
    (Cycle (LoadROM NewChip [0x10, 0x00]).1).map
      (fun c => ((LoadROM c [0xAA]).1.memory 0, (LoadROM c [0xAA]).2)) =
    some (0xAA, true) := by
  decide

/-- Claim C8: executing 7XNN adds NN to register X modulo 256, leaves VF
unchanged when X is not 15, and advances the program counter by 2. -/
theorem c8_add_immediate (chip : Chip8) (X NN : Nat)
    (hpc : chip.program_counter + 1 < 4096)
    (hb : chip.memory chip.program_counter = 0x70 + X) (hX : X < 16)
    (hnn : chip.memory (chip.program_counter + 1) = NN) (hNN : NN < 256) :
    ∃ c2, Cycle chip = some c2 ∧
      c2.registers X = (chip.registers X + NN) % 256 ∧
      (X ≠ 15 → c2.registers 15 = chip.registers 15) ∧
      c2.program_counter = chip.program_counter + 2 := by
  simp only [Cycle]
  rw [if_pos hpc, hb, hnn, or_shift8 (0x70 + X) NN hNN, getN_top, getN_X, getN_NN]
  have htop : ((0x70 + X) * 256 + NN) / 4096 % 16 = 7 := by omega
  have hreg : ((0x70 + X) * 256 + NN) / 256 % 16 = X := by omega
  have hval : ((0x70 + X) * 256 + NN) % 256 = NN := by omega
  rw [htop, hreg, hval]
  norm_num
  refine ⟨?_, ?_, ?_⟩
  · simp [upd]
  · intro h15
    simp only [upd]
    rw [if_neg (fun h => h15 h.symm)]
  · omega

/-- Claim C8 witness: opcode 0x750A at the freshly loaded chip. -/
theorem c8_add_immediate_witness :
    ∃ c2, Cycle (LoadROM NewChip [0x75, 0x0A]).1 = some c2 ∧
      c2.registers 5 = ((LoadROM NewChip [0x75, 0x0A]).1.registers 5 + 10) % 256 ∧
      ((5:Nat) ≠ 15 → c2.registers 15 = (LoadROM NewChip [0x75, 0x0A]).1.registers 15) ∧
      c2.program_counter = (LoadROM NewChip [0x75, 0x0A]).1.program_counter + 2 :=
  c8_add_immediate (LoadROM NewChip [0x75, 0x0A]).1 5 10
    (by decide) (by decide) (by decide) (by decide) (by decide)

/-- Claim C9: executing 6XNN stores NN into register X. -/
theorem c9_set_immediate (chip : Chip8) (X NN : Nat)
    (hpc : chip.program_counter + 1 < 4096)
    (hb : chip.memory chip.program_counter = 0x60 + X) (hX : X < 16)
    (hnn : chip.memory (chip.program_counter + 1) = NN) (hNN : NN < 256) :
    ∃ c2, Cycle chip = some c2 ∧ c2.registers X = NN := by
  simp only [Cycle]
  rw [if_pos hpc, hb, hnn, or_shift8 (0x60 + X) NN hNN, getN_top, getN_X, getN_NN]
  have htop : ((0x60 + X) * 256 + NN) / 4096 % 16 = 6 := by omega
  have hreg : ((0x60 + X) * 256 + NN) / 256 % 16 = X := by omega
  have hval : ((0x60 + X) * 256 + NN) % 256 = NN := by omega
  rw [htop, hreg, hval]
  norm_num
  simp [upd, Nat.mod_eq_of_lt hNN]

/-- Claim C9 witness: opcode 0x632A at the freshly loaded chip. -/
theorem c9_set_immediate_witness :
    ∃ c2, Cycle (LoadROM NewChip [0x63, 0x2A]).1 = some c2 ∧ c2.registers 3 = 0x2A :=
  c9_set_immediate (LoadROM NewChip [0x63, 0x2A]).1 3 0x2A
    (by decide) (by decide) (by decide) (by decide) (by decide)

/-- Claim C10: when the fetched instruction's top nibble is outside the
implemented set, Cycle returns the state unchanged in every field, so the
same instruction would be fetched again. -/
theorem c10_unrecognized_class_no_state_change (chip : Chip8) (b nn : Nat)
    (hpc : chip.program_counter + 1 < 4096)
    (hb : chip.memory chip.program_counter = b) (hb2 : b < 256)
    (hnn : chip.memory (chip.program_counter + 1) = nn) (hnn2 : nn < 256)
    (h0 : b / 16 ≠ 0) (h1 : b / 16 ≠ 1) (h6 : b / 16 ≠ 6) (h7 : b / 16 ≠ 7)
    (h10 : b / 16 ≠ 10) (h13 : b / 16 ≠ 13) :
    Cycle chip = some chip := by
  simp only [Cycle]
  rw [if_pos hpc, hb, hnn, or_shift8 b nn hnn2, getN_top]
  have htop : (b * 256 + nn) / 4096 % 16 = b / 16 := by omega
  rw [htop, if_neg h0, if_neg h1, if_neg h6, if_neg h7, if_neg h10, if_neg h13]

/-- Claim C10 witness: opcode 0x8F23 (class 8, unimplemented) at the freshly
loaded chip. -/
theorem c10_unrecognized_class_no_state_change_witness :
    Cycle (LoadROM NewChip [0x8F, 0x23]).1 = some (LoadROM NewChip [0x8F, 0x23]).1 :=
  c10_unrecognized_class_no_state_change (LoadROM NewChip [0x8F, 0x23]).1 0x8F 0x23
    (by decide) (by decide) (by decide) (by decide) (by decide)
    (by decide) (by decide) (by decide) (by decide) (by decide) (by decide)

end Chip8Go
